import Mathlib

/-!
Verification development for the UI-testing agent's action
interpretation-and-execution engine.

The definitions below are a shallow embedding of the Python source:
`parse_bounds`, the platform executors (`process_web_click`,
`process_mobile_tap`, `process_web_input`, `process_mobile_input`,
`process_web_scroll`, `process_mobile_swipe`), the dispatcher
`process_next_action`, the platform detector
`PlatformDetector.detect_platform`, and the bounded step loop of
`__main__`.  JSON values are embedded as an inductive type, Python
exceptions as an error type, and driver calls as an effect trace.
-/

namespace FtntQa

/-- Python exception classes that the embedded code can raise. -/
inductive PyErr where
  | keyError
  | typeError
  | valueError
  | attributeError
deriving DecidableEq, Repr

/-- Artifact references (paths returned by the capture collaborators);
their identity is irrelevant, only presence (`some`) vs absence (`none`). -/
abbrev Artifact := Nat

/-- JSON values as produced by `json.loads`. -/
inductive JVal where
  | jnull
  | jbool (b : Bool)
  | jnum (q : ℚ)
  | jstr (s : String)
  | jarr (elems : List JVal)
  | jobj (fields : List (String × JVal))

/-- First-wins association-list lookup (dicts produced by `json.loads`
have unique keys, so this is Python dict lookup). -/
def jlookup : List (String × JVal) → String → Option JVal
  | [], _ => none
  | (k', v) :: rest, k => if k' = k then some v else jlookup rest k

/-- Python dict assignment `d[k] = v`: replace the binding if present,
else append. -/
def jsetFields : List (String × JVal) → String → JVal → List (String × JVal)
  | [], k, v => [(k, v)]
  | (k', v') :: rest, k, v =>
      if k' = k then (k, v) :: rest else (k', v') :: jsetFields rest k v

/-- Python `k in data` for a dict (`False` on non-dicts, which the code
never reaches). -/
def jhas (j : JVal) (k : String) : Bool :=
  match j with
  | .jobj f => (jlookup f k).isSome
  | _ => false

/-- Python `data[k]` at places where the key is known to be present
(guarded by `k in data`); the default is unreachable. -/
def jfind (j : JVal) (k : String) : JVal :=
  match j with
  | .jobj f => (jlookup f k).getD .jnull
  | _ => .jnull

/-- Python subscript `data[k]` with its exceptions: `KeyError` on a dict
without the key, `TypeError` on non-dict values. -/
def pyGet (j : JVal) (k : String) : Except PyErr JVal :=
  match j with
  | .jobj f =>
      match jlookup f k with
      | some v => .ok v
      | none => .error .keyError
  | _ => .error .typeError

/-- Python `data.get(k, dflt)` (call sites only reach this with a dict). -/
def jgetD (j : JVal) (k : String) (dflt : JVal) : JVal :=
  match j with
  | .jobj f => (jlookup f k).getD dflt
  | _ => dflt

/-- Python `data[k] = v` on a dict (call sites only reach this with a
dict). -/
def jset (j : JVal) (k : String) (v : JVal) : JVal :=
  match j with
  | .jobj f => .jobj (jsetFields f k v)
  | other => other

/-- Python `v == s` for a string literal `s` (cross-type equality is
`False`). -/
def jeqStr (v : JVal) (s : String) : Bool :=
  match v with
  | .jstr t => t = s
  | _ => false

/-- Coerce a JSON value to a Python number for arithmetic (`bool` counts
as an int in Python); anything else raises `TypeError`. -/
def jToNum : JVal → Except PyErr ℚ
  | .jnum q => .ok q
  | .jbool b => .ok (if b then 1 else 0)
  | _ => .error .typeError

/-! ### Python string and integer primitives used by `parse_bounds` -/

/-- ASCII whitespace stripped by Python `int(str)`. -/
def isWs (c : Char) : Bool :=
  c = ' ' || c = '\t' || c = '\n' || c = '\r' ||
  c = Char.ofNat 11 || c = Char.ofNat 12

/-- Strip whitespace from both ends, as `int(str)` does. -/
def stripWs (l : List Char) : List Char :=
  ((l.dropWhile isWs).reverse.dropWhile isWs).reverse

/-- Decimal value of a digit character. -/
def dval (c : Char) : Nat := c.toNat - 48

/-- Digit run with Python's single-underscore grouping
(`int("1_0") = 10`, `int("1__0")` and `int("1_")` raise). -/
def pyDigits : Nat → List Char → Option Nat
  | acc, [] => some acc
  | acc, [c] => if c.isDigit then some (10 * acc + dval c) else none
  | acc, c :: d :: rest =>
      if c.isDigit then pyDigits (10 * acc + dval c) (d :: rest)
      else if c = '_' then
        if d.isDigit then pyDigits (10 * acc + dval d) rest else none
      else none

/-- Unsigned decimal literal as accepted by `int(str)` after sign
handling. -/
def pyNat (l : List Char) : Option Nat :=
  match l with
  | [] => none
  | c :: rest => if c.isDigit then pyDigits (dval c) rest else none

/-- Python `int(str)`: optional surrounding whitespace, optional sign,
then a decimal literal; anything else raises `ValueError`. -/
def pyInt (l : List Char) : Option Int :=
  match stripWs l with
  | [] => none
  | c :: rest =>
      if c = '+' then (pyNat rest).map Int.ofNat
      else if c = '-' then (pyNat rest).map (fun n => -(n : Int))
      else (pyNat (c :: rest)).map Int.ofNat

/-- Python `s.split("][")`: split on non-overlapping occurrences of the
two-character separator, scanning left to right. -/
def pySplitBB : List Char → List (List Char)
  | [] => [[]]
  | [c] => [[c]]
  | c1 :: c2 :: rest =>
      if c1 = ']' && c2 = '[' then [] :: pySplitBB rest
      else
        match pySplitBB (c2 :: rest) with
        | [] => [[c1]]
        | h :: t => (c1 :: h) :: t

/-- Python `s.split(",")`. -/
def pySplitComma : List Char → List (List Char)
  | [] => [[]]
  | c :: rest =>
      if c = ',' then [] :: pySplitComma rest
      else
        match pySplitComma rest with
        | [] => [[c]]
        | h :: t => (c :: h) :: t

/-- Embedding of `parse_bounds` (src/actions.py lines 15-20): split on
`"]["` into exactly two parts, drop the first character of the first
part and the last character of the second, split each on `","` into
exactly two parts, and convert each with `int`.  `none` models the
`ValueError` the Python code raises. -/
def parse_bounds (s : List Char) : Option (Int × Int × Int × Int) :=
  match pySplitBB s with
  | [left_top, right_bottom] =>
      match pySplitComma (left_top.drop 1),
            pySplitComma (right_bottom.dropLast) with
      | [ls, ts], [rs, bs] =>
          match pyInt ls, pyInt ts, pyInt rs, pyInt bs with
          | some l, some t, some r, some b => some (l, t, r, b)
          | _, _, _, _ => none
      | _, _ => none
  | _ => none

/-! ### The canonical bounds formatter (spec side)

Modelled from the spec: the canonical formatter producing the bit-exact
shape `"[L,T][R,B]"` that §6 fixes as the bounds wire format.  The
repository never prints bounds itself (the oracle produces them), so
this definition follows the spec's words; it is compared with
`parse_bounds`, which is translated from the source. -/

/-- Decimal digit character. -/
def digitChar : Nat → Char
  | 0 => '0' | 1 => '1' | 2 => '2' | 3 => '3' | 4 => '4'
  | 5 => '5' | 6 => '6' | 7 => '7' | 8 => '8' | _ => '9'

/-- Decimal digits of a natural number, most significant first; the
fuel argument only drives the recursion (`n + 1` is always enough). -/
def natToDigitsAux : Nat → Nat → List Char
  | 0, _ => []
  | fuel + 1, n =>
      if n < 10 then [digitChar n]
      else natToDigitsAux fuel (n / 10) ++ [digitChar (n % 10)]

/-- Decimal digits of a natural number. -/
def natToDigits (n : Nat) : List Char := natToDigitsAux (n + 1) n

/-- Canonical decimal rendering of an integer. -/
def intToDigits (i : Int) : List Char :=
  if i < 0 then '-' :: natToDigits i.natAbs else natToDigits i.natAbs

/-- The canonical bounds formatter: `"[L,T][R,B]"`. -/
def boundsFormat (l t r b : Int) : List Char :=
  ('[' :: intToDigits l ++ ',' :: intToDigits t) ++ ']' :: '[' ::
    (intToDigits r ++ ',' :: intToDigits b ++ [']'])

/-! ### Driver effect traces and the platform executors -/

/-- One driver/backend call, recorded in order of execution.  The two
capture constructors correspond to the `take_page_source_fn` /
`take_screenshot_fn` collaborators; everything else is a backend UI
operation. -/
inductive Effect where
  | webClickElemXPath (x : JVal)
  | webClickElemCss (c : JVal)
  | webClickPoint (px py : ℚ)
  | webLocateXPath (x : JVal)
  | webLocateCss (c : JVal)
  | elemClear
  | elemSendKeys (v : JVal)
  | elemClick
  | mobileTapPoint (px py : ℚ)
  | mobileFindXPath (x : JVal)
  | mobileFindFocused
  | hideKeyboard
  | webScrollBy (dx dy : ℚ)
  | mobileSwipeGesture (sx sy ex ey dur : JVal)
  | sleepSecs (q : ℚ)
  | capturePageSource
  | captureScreenshot

/-- Effects that touch the backend UI session (everything except the
two capture collaborators). -/
def Effect.isBackendOp : Effect → Bool
  | .capturePageSource => false
  | .captureScreenshot => false
  | _ => true

/-- Result of running one executor: the driver calls performed, and the
exception (if any) that escaped the executor into the dispatcher's
`try`. -/
abbrev ExecOut := List Effect × Option PyErr

/-- The x coordinate `left + (right - left) / 2` computed by the
executors over bounds, with Python's true (non-truncating) division. -/
def centerX (l r : Int) : ℚ := (l : ℚ) + ((r : ℚ) - (l : ℚ)) / 2

/-- The y coordinate `top + (bottom - top) / 2` computed by the
executors over bounds, with Python's true (non-truncating) division. -/
def centerY (t b : Int) : ℚ := (t : ℚ) + ((b : ℚ) - (t : ℚ)) / 2

/-- Run `parse_bounds` on the value of the `"bounds"` key the way the
executors do: a non-string raises `AttributeError` at `.split`, a parse
failure raises `ValueError`. -/
def boundsOf (data : JVal) : Except PyErr (Int × Int × Int × Int) :=
  match jfind data "bounds" with
  | .jstr s =>
      match parse_bounds s.data with
      | some q => .ok q
      | none => .error .valueError
  | _ => .error .attributeError

/-- Embedding of `process_web_click` (src/actions.py lines 23-41):
xpath first, then css, then bounds; no branch taken means no driver
call at all. -/
def process_web_click (data : JVal) : ExecOut :=
  if jhas data "xpath" then
    ([.webClickElemXPath (jfind data "xpath")], none)
  else if jhas data "css" then
    ([.webClickElemCss (jfind data "css")], none)
  else if jhas data "bounds" then
    match boundsOf data with
    | .ok (l, t, r, b) => ([.webClickPoint (centerX l r) (centerY t b)], none)
    | .error e => ([], some e)
  else ([], none)

/-- Embedding of `process_mobile_tap` (src/actions.py lines 44-53):
bounds first, then xpath. -/
def process_mobile_tap (data : JVal) : ExecOut :=
  if jhas data "bounds" then
    match boundsOf data with
    | .ok (l, t, r, b) => ([.mobileTapPoint (centerX l r) (centerY t b)], none)
    | .error e => ([], some e)
  else if jhas data "xpath" then
    ([.mobileFindXPath (jfind data "xpath"), .elemClick], none)
  else ([], none)

/-- Embedding of `process_web_input` (src/actions.py lines 56-69):
xpath first, then css; `data["value"]` is read only when sending keys,
so a missing value raises `KeyError` after locate and clear. -/
def process_web_input (data : JVal) : ExecOut :=
  if jhas data "xpath" then
    match pyGet data "value" with
    | .ok v =>
        ([.webLocateXPath (jfind data "xpath"), .elemClear, .elemSendKeys v],
         none)
    | .error e => ([.webLocateXPath (jfind data "xpath"), .elemClear], some e)
  else if jhas data "css" then
    match pyGet data "value" with
    | .ok v =>
        ([.webLocateCss (jfind data "css"), .elemClear, .elemSendKeys v], none)
    | .error e => ([.webLocateCss (jfind data "css"), .elemClear], some e)
  else ([], none)

/-- Embedding of `process_mobile_input` (src/actions.py lines 72-93):
bounds first (tap center, find the focused element, send keys), then
xpath (click, find the focused element, send keys); keyboard dismissal
is best-effort and never raises. -/
def process_mobile_input (data : JVal) : ExecOut :=
  if jhas data "bounds" then
    match boundsOf data with
    | .ok (l, t, r, b) =>
        match pyGet data "value" with
        | .ok v =>
            ([.mobileTapPoint (centerX l r) (centerY t b), .mobileFindFocused,
              .elemSendKeys v, .hideKeyboard], none)
        | .error e =>
            ([.mobileTapPoint (centerX l r) (centerY t b), .mobileFindFocused],
             some e)
    | .error e => ([], some e)
  else if jhas data "xpath" then
    match pyGet data "value" with
    | .ok v =>
        ([.mobileFindXPath (jfind data "xpath"), .elemClick,
          .mobileFindFocused, .elemSendKeys v, .hideKeyboard], none)
    | .error e =>
        ([.mobileFindXPath (jfind data "xpath"), .elemClick,
          .mobileFindFocused], some e)
  else ([], none)

/-- Embedding of `process_web_scroll` (src/actions.py lines 96-100):
`scrollBy(end_x - start_x, end_y - start_y)` with missing keys
defaulting to 0; non-numeric operands raise `TypeError` before any
driver call. -/
def process_web_scroll (data : JVal) : ExecOut :=
  match jToNum (jgetD data "swipe_end_x" (.jnum 0)),
        jToNum (jgetD data "swipe_start_x" (.jnum 0)) with
  | .ok ex, .ok sx =>
      match jToNum (jgetD data "swipe_end_y" (.jnum 0)),
            jToNum (jgetD data "swipe_start_y" (.jnum 0)) with
      | .ok ey, .ok sy => ([.webScrollBy (ex - sx) (ey - sy)], none)
      | _, _ => ([], some .typeError)
  | _, _ => ([], some .typeError)

/-- Embedding of `process_mobile_swipe` (src/actions.py lines 103-113):
the four coordinates are required keys, duration defaults to 500; the
gesture is issued, then the flow sleeps `duration / 1000` (a
non-numeric duration raises `TypeError` at the division, a negative one
raises `ValueError` inside `sleep`, both after the gesture). -/
def process_mobile_swipe (data : JVal) : ExecOut :=
  match pyGet data "swipe_start_x" with
  | .error e => ([], some e)
  | .ok sx =>
  match pyGet data "swipe_start_y" with
  | .error e => ([], some e)
  | .ok sy =>
  match pyGet data "swipe_end_x" with
  | .error e => ([], some e)
  | .ok ex =>
  match pyGet data "swipe_end_y" with
  | .error e => ([], some e)
  | .ok ey =>
    let dur := jgetD data "duration" (.jnum 500)
    match jToNum dur with
    | .error e => ([.mobileSwipeGesture sx sy ex ey dur], some e)
    | .ok q =>
        if q / 1000 < 0 then
          ([.mobileSwipeGesture sx sy ex ey dur], some .valueError)
        else
          ([.mobileSwipeGesture sx sy ex ey dur, .sleepSecs (q / 1000)], none)

/-- The `wait` branch of the dispatcher:
`sleep(data.get("timeout", 5000) / 1000)`. -/
def pyWaitAction (data : JVal) : ExecOut :=
  match jToNum (jgetD data "timeout" (.jnum 5000)) with
  | .error e => ([], some e)
  | .ok q =>
      if q / 1000 < 0 then ([], some .valueError)
      else ([.sleepSecs (q / 1000)], none)

/-! ### The dispatcher `process_next_action` -/

/-- Rendering of a caught exception into the `f"error: {err}"` result
string (the message text is abstracted to the exception class name). -/
def errText : PyErr → String
  | .keyError => "KeyError"
  | .typeError => "TypeError"
  | .valueError => "ValueError"
  | .attributeError => "AttributeError"

/-- The degenerate outcome returned on unparseable JSON:
`{"action": "error", "result": "Invalid JSON"}`. -/
def invalidJsonOutcome : JVal :=
  .jobj [("action", .jstr "error"), ("result", .jstr "Invalid JSON")]

/-- Turn an executor run into the effect list plus the result string the
dispatcher stores: `"success"` if nothing escaped, `"error: <err>"` for
a caught exception. -/
def execResult : ExecOut → List Effect × JVal
  | (effs, none) => (effs, .jstr "success")
  | (effs, some e) => (effs, .jstr ("error: " ++ errText e))

/-- The `try` block of `process_next_action` (src/actions.py lines
142-169): route by action kind and platform, catch any exception into
the result string, mark unknown kinds without executing anything. -/
def runAction (data av : JVal) (platform : String) : List Effect × JVal :=
  if jeqStr av "tap" then
    execResult
      (if platform = "web" then process_web_click data
       else process_mobile_tap data)
  else if jeqStr av "input" then
    execResult
      (if platform = "web" then process_web_input data
       else process_mobile_input data)
  else if jeqStr av "swipe" then
    execResult
      (if platform = "web" then process_web_scroll data
       else process_mobile_swipe data)
  else if jeqStr av "wait" then
    execResult (pyWaitAction data)
  else ([], .jstr "unknown action")

/-- Embedding of `process_next_action` (src/actions.py lines 116-173).
`parsed` is the result of `json.loads` (`none` = `JSONDecodeError`);
`capSrc`/`capShot` are the values the capture collaborators return when
called.  The outer `Except` is an exception that escapes the function:
the subscript `data["action"]` is evaluated outside any handler, so a
non-dict or a dict without `"action"` raises there. -/
def process_next_action (parsed : Option JVal) (platform : String)
    (capSrc capShot : Option Artifact) :
    Except PyErr ((Option Artifact × Option Artifact) × JVal × List Effect) :=
  match parsed with
  | none => .ok ((none, none), invalidJsonOutcome, [])
  | some data =>
      match pyGet data "action" with
      | .error e => .error e
      | .ok av =>
          if jeqStr av "error" || jeqStr av "finish" then
            .ok ((capSrc, capShot), jset data "result" (.jstr "success"),
                 [.capturePageSource, .captureScreenshot])
          else
            let (effs, res) := runAction data av platform
            .ok ((capSrc, capShot), jset data "result" res,
                 effs ++ [.capturePageSource, .captureScreenshot])

/-! ### Platform detection -/

/-- Substring test (Python `needle in haystack` on strings). -/
def isSub : List Char → List Char → Bool
  | needle, [] => needle.isEmpty
  | needle, c :: rest => needle.isPrefixOf (c :: rest) || isSub needle rest

/-- Python `str.lower()` (ASCII-relevant part). -/
def pyLower (s : List Char) : List Char := s.map Char.toLower

/-- The web condition of `detect_platform`: an HTML tag or doctype in
the lowercased source. -/
def hasHtmlMarker (s : List Char) : Bool :=
  isSub "<html".data (pyLower s) || isSub "<!doctype html".data (pyLower s)

/-- The iOS condition of `detect_platform`: the native element-type
marker, case-sensitive. -/
def hasIosMarker (s : List Char) : Bool :=
  isSub "XCUIElementType".data s

/-- The Android condition of `detect_platform`: `"android"` or
`"hierarchy"` in the lowercased source. -/
def hasAndroidMarker (s : List Char) : Bool :=
  isSub "android".data (pyLower s) || isSub "hierarchy".data (pyLower s)

/-- Embedding of `PlatformDetector.detect_platform`
(src/ai-testing-tool.py lines 37-52). -/
def detect_platform (s : List Char) : String :=
  if hasHtmlMarker s then "web"
  else if hasIosMarker s then "ios"
  else if hasAndroidMarker s then "android"
  else "unknown"

/-! ### The bounded step loop of `__main__` -/

/-- One step record: the step index, the artifacts returned by the
dispatcher, and the outcome JSON written to `step_<n>.json` and
appended to the history. -/
structure StepRec where
  idx : Nat
  src : Option Artifact
  shot : Option Artifact
  outcome : JVal

/-- The while loop of `__main__` (src/ai-testing-tool.py lines 649-684),
with the oracle (`generate_next_action` composed with `json.loads`) and
the per-step capture collaborators abstracted as functions.  The fuel
argument equals `50 - step`, so the guard `step < 50` is the fuel
reaching zero.  Returns the records produced, paired with the exception
that crashed the loop, if any. -/
def loopAux (oracle : Nat → List JVal → Option Artifact → Option Artifact →
      Option JVal)
    (caps : Nat → Option Artifact × Option Artifact) (platform : String) :
    Nat → Nat → Option Artifact → Option Artifact → List JVal →
      List StepRec × Option PyErr
  | 0, _, _, _, _ => ([], none)
  | fuel + 1, step, src, shot, hist =>
      match src with
      | none => ([], none)
      | some _ =>
          let stepN := step + 1
          let instr := oracle stepN hist src shot
          match process_next_action instr platform (caps stepN).1
              (caps stepN).2 with
          | .error e => ([], some e)
          | .ok ((src', shot'), res, _) =>
              let r : StepRec := ⟨stepN, src', shot', res⟩
              match pyGet res "action" with
              | .error e => ([r], some e)
              | .ok av =>
                  if jeqStr av "finish" || jeqStr av "error" then ([r], none)
                  else
                    let (rest, err) :=
                      loopAux oracle caps platform fuel stepN src' shot'
                        (hist ++ [res])
                    (r :: rest, err)

/-- One task's run: the loop entered with step counter 0, the step-0
capture artifacts, and an empty history. -/
def runTask (oracle : Nat → List JVal → Option Artifact → Option Artifact →
      Option JVal)
    (caps : Nat → Option Artifact × Option Artifact) (platform : String)
    (initSrc initShot : Option Artifact) : List StepRec × Option PyErr :=
  loopAux oracle caps platform 50 0 initSrc initShot []

/-! ### Helper lemmas on digits and decimal rendering -/

theorem digitChar_toNat {n : Nat} (h : n < 10) : (digitChar n).toNat = 48 + n := by
  interval_cases n <;> rfl

theorem digitChar_isDigit {n : Nat} (h : n < 10) :
    (digitChar n).isDigit = true := by
  interval_cases n <;> rfl

theorem dval_digitChar {n : Nat} (h : n < 10) : dval (digitChar n) = n := by
  simp [dval, digitChar_toNat h]

theorem isDigit_ne_lbracket {c : Char} (h : c.isDigit = true) : c ≠ '[' := by
  rintro rfl; simp [Char.isDigit] at h

theorem isDigit_ne_rbracket {c : Char} (h : c.isDigit = true) : c ≠ ']' := by
  rintro rfl; simp [Char.isDigit] at h

theorem isDigit_ne_comma {c : Char} (h : c.isDigit = true) : c ≠ ',' := by
  rintro rfl; simp [Char.isDigit] at h

theorem isDigit_ne_plus {c : Char} (h : c.isDigit = true) : c ≠ '+' := by
  rintro rfl; simp [Char.isDigit] at h

theorem isDigit_ne_minus {c : Char} (h : c.isDigit = true) : c ≠ '-' := by
  rintro rfl; simp [Char.isDigit] at h

theorem isDigit_not_ws {c : Char} (h : c.isDigit = true) : isWs c = false := by
  rcases hw : isWs c with _ | _
  · rfl
  · simp only [isWs, Bool.or_eq_true, decide_eq_true_eq] at hw
    rcases hw with ((((rfl | rfl) | rfl) | rfl) | rfl) | rfl <;> simp at h

/-- Characterization of `natToDigitsAux` with enough fuel: digits only,
nonempty, and folding the decimal accumulator recovers the number. -/
theorem natToDigitsAux_spec :
    ∀ fuel n, n < fuel →
      (∀ c ∈ natToDigitsAux fuel n, c.isDigit = true) ∧
      natToDigitsAux fuel n ≠ [] ∧
      ∀ acc, (natToDigitsAux fuel n).foldl (fun a c => 10 * a + dval c) acc =
        acc * 10 ^ (natToDigitsAux fuel n).length + n := by
  intro fuel
  induction fuel with
  | zero => intro n h; omega
  | succ fuel ih =>
      intro n h
      by_cases h10 : n < 10
      · refine ⟨?_, ?_, ?_⟩
        · intro c hc
          simp [natToDigitsAux, h10] at hc
          subst hc; exact digitChar_isDigit h10
        · simp [natToDigitsAux, h10]
        · intro acc
          simp [natToDigitsAux, h10, List.foldl, dval_digitChar h10]
          ring
      · have hdiv : n / 10 < fuel := by omega
        obtain ⟨hd, hne, hf⟩ := ih (n / 10) hdiv
        refine ⟨?_, ?_, ?_⟩
        · intro c hc
          simp [natToDigitsAux, h10] at hc
          rcases hc with hc | hc
          · exact hd c hc
          · subst hc; exact digitChar_isDigit (Nat.mod_lt _ (by omega))
        · simp [natToDigitsAux, h10]
        · intro acc
          have hmod10 : n % 10 < 10 := by omega
          simp only [natToDigitsAux, if_neg h10, List.foldl_append,
            List.length_append, List.length_cons, List.length_nil, Nat.zero_add]
          rw [hf acc]
          simp only [List.foldl_cons, List.foldl_nil, dval_digitChar hmod10]
          have hstep :
              10 * (acc * 10 ^ (natToDigitsAux fuel (n / 10)).length + n / 10) +
                n % 10 =
              acc * 10 ^ ((natToDigitsAux fuel (n / 10)).length + 1) + n := by
            rw [pow_succ]
            have hdm : 10 * (n / 10) + n % 10 = n := Nat.div_add_mod n 10
            calc 10 * (acc * 10 ^ (natToDigitsAux fuel (n / 10)).length + n / 10) +
                  n % 10
                = acc * (10 ^ (natToDigitsAux fuel (n / 10)).length * 10) +
                  (10 * (n / 10) + n % 10) := by ring
              _ = acc * (10 ^ (natToDigitsAux fuel (n / 10)).length * 10) + n := by
                  rw [hdm]
          exact hstep

theorem natToDigits_digits {n : Nat} :
    ∀ c ∈ natToDigits n, c.isDigit = true :=
  (natToDigitsAux_spec (n + 1) n (Nat.lt_succ_self n)).1

theorem natToDigits_ne_nil {n : Nat} : natToDigits n ≠ [] :=
  (natToDigitsAux_spec (n + 1) n (Nat.lt_succ_self n)).2.1

theorem natToDigits_foldl {n : Nat} (acc : Nat) :
    (natToDigits n).foldl (fun a c => 10 * a + dval c) acc =
      acc * 10 ^ (natToDigits n).length + n :=
  (natToDigitsAux_spec (n + 1) n (Nat.lt_succ_self n)).2.2 acc

/-- On digit-only input, `pyDigits` is the plain decimal fold. -/
theorem pyDigits_of_digits :
    ∀ l : List Char, (∀ c ∈ l, c.isDigit = true) → ∀ acc,
      pyDigits acc l = some (l.foldl (fun a c => 10 * a + dval c) acc) := by
  intro l
  induction l with
  | nil => intro _ acc; rfl
  | cons c rest ih =>
      intro hl acc
      have hc : c.isDigit = true := hl c (by simp)
      have hrest : ∀ c ∈ rest, c.isDigit = true := fun x hx => hl x (by simp [hx])
      cases rest with
      | nil => simp [pyDigits, hc, List.foldl]
      | cons d rest₂ =>
          simp only [pyDigits, hc, if_pos]
          rw [ih hrest]
          simp [List.foldl]

theorem pyNat_natToDigits (n : Nat) : pyNat (natToDigits n) = some n := by
  rcases hl : natToDigits n with _ | ⟨c, rest⟩
  · exact absurd hl natToDigits_ne_nil
  · have hd : ∀ x ∈ natToDigits n, x.isDigit = true := natToDigits_digits
    rw [hl] at hd
    have hc : c.isDigit = true := hd c (by simp)
    have hrest : ∀ x ∈ rest, x.isDigit = true := fun x hx => hd x (by simp [hx])
    have hfold := natToDigits_foldl (n := n) 0
    rw [hl] at hfold
    simp only [List.foldl_cons, Nat.mul_zero, Nat.zero_add] at hfold
    simp only [pyNat, hc, if_pos]
    rw [pyDigits_of_digits rest hrest]
    simp at hfold
    simp [hfold]

/-! ### Helper lemmas on the split and int primitives -/

theorem pySplitBB_no_sep :
    ∀ b : List Char, (∀ c ∈ b, c ≠ '[') → pySplitBB b = [b] := by
  intro b
  induction b with
  | nil => intro _; rfl
  | cons c rest ih =>
      intro hb
      cases rest with
      | nil => rfl
      | cons d rest₂ =>
          have hd : d ≠ '[' := hb d (by simp)
          have hrest : ∀ x ∈ d :: rest₂, x ≠ '[' := fun x hx => hb x (by simp [hx])
          simp only [pySplitBB, hd, Bool.and_false, Bool.false_eq_true,
            if_neg, decide_eq_true_eq]
          rw [ih hrest]
          simp [hd]

theorem pySplitBB_mid :
    ∀ a b : List Char, (∀ c ∈ a, c ≠ ']') →
      pySplitBB (a ++ ']' :: '[' :: b) = a :: pySplitBB b := by
  intro a
  induction a with
  | nil => intro b _; rfl
  | cons x a₂ ih =>
      intro b ha
      have hx : x ≠ ']' := ha x (by simp)
      have ha₂ : ∀ c ∈ a₂, c ≠ ']' := fun c hc => ha c (by simp [hc])
      cases a₂ with
      | nil =>
          simp only [List.nil_append, List.cons_append]
          simp [pySplitBB, hx]
      | cons y a₃ =>
          have hmid := ih b ha₂
          simp only [List.cons_append] at hmid ⊢
          simp only [pySplitBB, hx]
          rw [hmid]
          simp [hx]

theorem pySplitComma_no_sep :
    ∀ b : List Char, (∀ c ∈ b, c ≠ ',') → pySplitComma b = [b] := by
  intro b
  induction b with
  | nil => intro _; rfl
  | cons c rest ih =>
      intro hb
      have hc : c ≠ ',' := hb c (by simp)
      have hrest : ∀ x ∈ rest, x ≠ ',' := fun x hx => hb x (by simp [hx])
      simp [pySplitComma, hc, ih hrest]

theorem pySplitComma_mid :
    ∀ a b : List Char, (∀ c ∈ a, c ≠ ',') →
      pySplitComma (a ++ ',' :: b) = a :: pySplitComma b := by
  intro a
  induction a with
  | nil => intro b _; rfl
  | cons x a₂ ih =>
      intro b ha
      have hx : x ≠ ',' := ha x (by simp)
      have ha₂ : ∀ c ∈ a₂, c ≠ ',' := fun c hc => ha c (by simp [hc])
      simp [pySplitComma, hx, ih b ha₂]

theorem dropWhile_eq_self_of {p : Char → Bool} :
    ∀ l : List Char, (∀ c ∈ l, p c = false) → l.dropWhile p = l := by
  intro l hl
  cases l with
  | nil => rfl
  | cons c rest => simp [List.dropWhile_cons, hl c (by simp)]

theorem stripWs_eq_self {l : List Char} (h : ∀ c ∈ l, isWs c = false) :
    stripWs l = l := by
  unfold stripWs
  rw [dropWhile_eq_self_of l h, dropWhile_eq_self_of l.reverse
    (fun c hc => h c (List.mem_reverse.mp hc)), List.reverse_reverse]

/-- `pyInt` recovers a natural number from its canonical digits. -/
theorem pyInt_natToDigits (n : Nat) :
    pyInt (natToDigits n) = some (n : Int) := by
  have hdig : ∀ c ∈ natToDigits n, c.isDigit = true := natToDigits_digits
  have hws : ∀ c ∈ natToDigits n, isWs c = false :=
    fun c hc => isDigit_not_ws (hdig c hc)
  unfold pyInt
  rw [stripWs_eq_self hws]
  rcases hl : natToDigits n with _ | ⟨c, rest⟩
  · exact absurd hl natToDigits_ne_nil
  · have hc : c.isDigit = true := by
      have := hdig c; rw [hl] at this; exact this (by simp)
    have hplus : c ≠ '+' := isDigit_ne_plus hc
    have hminus : c ≠ '-' := isDigit_ne_minus hc
    simp only [hplus, hminus, if_neg]
    have := pyNat_natToDigits n
    rw [hl] at this
    rw [this]
    rfl

theorem intToDigits_nonneg {i : Int} (h : 0 ≤ i) :
    intToDigits i = natToDigits i.natAbs := by
  unfold intToDigits
  rw [if_neg (by omega)]

theorem dropLast_append_last (l : List Char) (x : Char) :
    (l ++ [x]).dropLast = l := by simp

/-- Parsing the canonically formatted bounds of a nonnegative quadruple
recovers the quadruple. -/
theorem parse_bounds_boundsFormat (l t r b : Int)
    (hl : 0 ≤ l) (ht : 0 ≤ t) (hr : 0 ≤ r) (hb : 0 ≤ b) :
    parse_bounds (boundsFormat l t r b) = some (l, t, r, b) := by
  have hL : ∀ c ∈ natToDigits l.natAbs, c.isDigit = true := natToDigits_digits
  have hT : ∀ c ∈ natToDigits t.natAbs, c.isDigit = true := natToDigits_digits
  have hR : ∀ c ∈ natToDigits r.natAbs, c.isDigit = true := natToDigits_digits
  have hB : ∀ c ∈ natToDigits b.natAbs, c.isDigit = true := natToDigits_digits
  have memA :
      ∀ c ∈ ('[' :: natToDigits l.natAbs ++ ',' :: natToDigits t.natAbs),
        c ≠ ']' := by
    intro c hc
    simp only [List.cons_append, List.mem_cons, List.mem_append] at hc
    rcases hc with rfl | hc | rfl | hc
    · decide
    · exact isDigit_ne_rbracket (hL c hc)
    · decide
    · exact isDigit_ne_rbracket (hT c hc)
  have memB :
      ∀ c ∈ (natToDigits r.natAbs ++ ',' :: natToDigits b.natAbs ++ [']']),
        c ≠ '[' := by
    intro c hc
    simp only [List.mem_append, List.mem_cons, List.mem_singleton] at hc
    rcases hc with (hc | rfl | hc) | rfl | h0
    · exact isDigit_ne_lbracket (hR c hc)
    · decide
    · exact isDigit_ne_lbracket (hB c hc)
    · decide
    · simp at h0
  have hsplit :
      pySplitBB (('[' :: natToDigits l.natAbs ++ ',' :: natToDigits t.natAbs)
          ++ ']' :: '[' ::
          (natToDigits r.natAbs ++ ',' :: natToDigits b.natAbs ++ [']'])) =
        [('[' :: natToDigits l.natAbs ++ ',' :: natToDigits t.natAbs),
         (natToDigits r.natAbs ++ ',' :: natToDigits b.natAbs ++ [']'])] := by
    rw [pySplitBB_mid _ _ memA, pySplitBB_no_sep _ memB]
  have hdrop :
      ('[' :: natToDigits l.natAbs ++ ',' :: natToDigits t.natAbs).drop 1 =
        natToDigits l.natAbs ++ ',' :: natToDigits t.natAbs := by
    simp
  have hcommaLT :
      pySplitComma (natToDigits l.natAbs ++ ',' :: natToDigits t.natAbs) =
        [natToDigits l.natAbs, natToDigits t.natAbs] := by
    rw [pySplitComma_mid _ _ (fun c hc => isDigit_ne_comma (hL c hc)),
        pySplitComma_no_sep _ (fun c hc => isDigit_ne_comma (hT c hc))]
  have hlast :
      (natToDigits r.natAbs ++ ',' :: natToDigits b.natAbs ++ [']']).dropLast =
        natToDigits r.natAbs ++ ',' :: natToDigits b.natAbs := by
    have hshape :
        natToDigits r.natAbs ++ ',' :: natToDigits b.natAbs ++ [']'] =
          (natToDigits r.natAbs ++ ',' :: natToDigits b.natAbs) ++ [']'] := by
      simp
    rw [hshape, dropLast_append_last]
  have hcommaRB :
      pySplitComma (natToDigits r.natAbs ++ ',' :: natToDigits b.natAbs) =
        [natToDigits r.natAbs, natToDigits b.natAbs] := by
    rw [pySplitComma_mid _ _ (fun c hc => isDigit_ne_comma (hR c hc)),
        pySplitComma_no_sep _ (fun c hc => isDigit_ne_comma (hB c hc))]
  unfold boundsFormat
  rw [intToDigits_nonneg hl, intToDigits_nonneg ht, intToDigits_nonneg hr,
      intToDigits_nonneg hb]
  unfold parse_bounds
  rw [hsplit]
  simp only [hdrop, hlast, hcommaLT, hcommaRB, pyInt_natToDigits]
  rw [Int.natAbs_of_nonneg hl, Int.natAbs_of_nonneg ht,
      Int.natAbs_of_nonneg hr, Int.natAbs_of_nonneg hb]

/-! ### Helper lemmas on JSON objects and the step loop -/

theorem jlookup_jsetFields_ne (f : List (String × JVal)) (k k' : String)
    (w : JVal) (hne : k ≠ k') :
    jlookup (jsetFields f k' w) k = jlookup f k := by
  induction f with
  | nil => simp [jsetFields, jlookup, Ne.symm hne]
  | cons p rest ih =>
      obtain ⟨k₂, v₂⟩ := p
      by_cases h2 : k₂ = k'
      · subst h2
        simp [jsetFields, jlookup, Ne.symm hne]
      · by_cases h3 : k₂ = k
        · subst h3
          simp [jsetFields, h2, jlookup]
        · simp [jsetFields, h2, jlookup, h3, ih]

theorem pyGet_jset_ne {d : JVal} {k k' : String} {v w : JVal}
    (h : pyGet d k = .ok v) (hne : k ≠ k') :
    pyGet (jset d k' w) k = .ok v := by
  cases d with
  | jobj f =>
      simp only [jset, pyGet] at h ⊢
      rw [jlookup_jsetFields_ne f k k' w hne]
      exact h
  | jnull => exact absurd h (by simp [pyGet])
  | jbool x => exact absurd h (by simp [pyGet])
  | jnum x => exact absurd h (by simp [pyGet])
  | jstr x => exact absurd h (by simp [pyGet])
  | jarr x => exact absurd h (by simp [pyGet])

theorem loopAux_src_none
    (oracle : Nat → List JVal → Option Artifact → Option Artifact →
      Option JVal)
    (caps : Nat → Option Artifact × Option Artifact) (p : String) :
    ∀ fuel step shot hist,
      loopAux oracle caps p fuel step none shot hist = ([], none) := by
  intro fuel step shot hist
  cases fuel with
  | zero => rfl
  | succ fuel => rfl

theorem loopAux_length_le
    (oracle : Nat → List JVal → Option Artifact → Option Artifact →
      Option JVal)
    (caps : Nat → Option Artifact × Option Artifact) (p : String) :
    ∀ fuel step src shot hist,
      (loopAux oracle caps p fuel step src shot hist).1.length ≤ fuel := by
  intro fuel
  induction fuel with
  | zero => intro step src shot hist; simp [loopAux]
  | succ fuel ih =>
      intro step src shot hist
      cases src with
      | none => simp [loopAux]
      | some a =>
          simp only [loopAux]
          cases hpa : process_next_action
              (oracle (step + 1) hist (some a) shot) p
              (caps (step + 1)).1 (caps (step + 1)).2 with
          | error e => simp
          | ok out =>
              obtain ⟨⟨src', shot'⟩, res, effs⟩ := out
              cases hg : pyGet res "action" with
              | error e => simp [hg]
              | ok av =>
                  by_cases hterm :
                      jeqStr av "finish" = true ∨ jeqStr av "error" = true
                  · simp [hg, hterm]
                  · simp only [hg]
                    rw [if_neg (by simpa using hterm)]
                    simp only [List.length_cons]
                    have := ih (step + 1) src' shot' (hist ++ [res])
                    omega

theorem loopAux_none_is_last
    (oracle : Nat → List JVal → Option Artifact → Option Artifact →
      Option JVal)
    (caps : Nat → Option Artifact × Option Artifact) (p : String) :
    ∀ fuel step src shot hist i r,
      (loopAux oracle caps p fuel step src shot hist).1.get? i = some r →
      r.src = none →
      i + 1 = (loopAux oracle caps p fuel step src shot hist).1.length := by
  intro fuel
  induction fuel with
  | zero => intro step src shot hist i r hget _; simp [loopAux] at hget
  | succ fuel ih =>
      intro step src shot hist i r hget hsrc
      cases src with
      | none => simp [loopAux] at hget
      | some a =>
          simp only [loopAux] at hget ⊢
          cases hpa : process_next_action
              (oracle (step + 1) hist (some a) shot) p
              (caps (step + 1)).1 (caps (step + 1)).2 with
          | error e => simp [hpa] at hget
          | ok out =>
              obtain ⟨⟨src', shot'⟩, res, effs⟩ := out
              simp only [hpa] at hget ⊢
              cases hg : pyGet res "action" with
              | error e =>
                  simp only [hg] at hget ⊢
                  cases i with
                  | zero => rfl
                  | succ i₂ => simp at hget
              | ok av =>
                  simp only [hg] at hget ⊢
                  by_cases hterm :
                      jeqStr av "finish" = true ∨ jeqStr av "error" = true
                  · rw [if_pos (by simpa using hterm)] at hget ⊢
                    cases i with
                    | zero => rfl
                    | succ i₂ => simp at hget
                  · rw [if_neg (by simpa using hterm)] at hget ⊢
                    cases i with
                    | zero =>
                        simp only [List.get?_cons_zero, Option.some.injEq]
                          at hget
                        subst hget
                        simp only at hsrc
                        rw [hsrc]
                        simp [loopAux_src_none]
                    | succ i₂ =>
                        simp only [List.get?_cons_succ,
                          List.length_cons] at hget ⊢
                        have := ih (step + 1) src' shot' (hist ++ [res]) i₂ r
                          hget hsrc
                        omega

/-- One unfolding step of the loop when fuel remains and the source
artifact is present. -/
theorem loopAux_succ
    (oracle : Nat → List JVal → Option Artifact → Option Artifact →
      Option JVal)
    (caps : Nat → Option Artifact × Option Artifact) (p : String)
    (fuel step : Nat) (a : Artifact) (shot : Option Artifact)
    (hist : List JVal) :
    loopAux oracle caps p (fuel + 1) step (some a) shot hist =
      (match process_next_action (oracle (step + 1) hist (some a) shot) p
          (caps (step + 1)).1 (caps (step + 1)).2 with
       | .error e => ([], some e)
       | .ok ((src', shot'), res, _) =>
           match pyGet res "action" with
           | .error e => ([⟨step + 1, src', shot', res⟩], some e)
           | .ok av =>
               if jeqStr av "finish" || jeqStr av "error" then
                 ([⟨step + 1, src', shot', res⟩], none)
               else
                 let q := loopAux oracle caps p fuel (step + 1) src' shot'
                   (hist ++ [res])
                 (⟨step + 1, src', shot', res⟩ :: q.1, q.2)) := rfl

/-! ### Claim theorems -/

/-- C5 (counterexample): `parse_bounds` does not fail on every string
outside the bit-exact `"[L,T][R,B]"` shape.  The string `"(1,2][3,4)"`
has round brackets where the exact shape demands square ones, yet the
function parses it successfully, because it strips the first and last
characters without inspecting them. -/
theorem parse_bounds_accepts_nonexact_shape :
    parse_bounds "(1,2][3,4)".data = some (1, 2, 3, 4) ∧
    ¬ ∃ L T R B : Int, "(1,2][3,4)".data = boundsFormat L T R B := by
  constructor
  · rfl
  · rintro ⟨L, T, R, B, h⟩
    rw [boundsFormat, List.cons_append] at h
    have hd : List.head? "(1,2][3,4)".data = some '[' := by rw [h]; rfl
    have hd' : List.head? "(1,2][3,4)".data = some '(' := rfl
    rw [hd'] at hd
    exact absurd (Option.some.inj hd) (by decide)

/-- C5 (amended): `parse_bounds` raises `MalformedBoundsError`
(`ValueError`) exactly when its split/strip/int decomposition fails; in
particular the spec's example `"[1,2][3"` raises rather than returning a
zero rectangle, as do `""` and `"[1,2]"`.  The accepted language is
however broader than the bit-exact `"[L,T][R,B]"` shape: the first and
last characters are never checked and `int()` tolerates whitespace
around the numbers. -/
theorem parse_bounds_failure_modes :
    parse_bounds "[1,2][3".data = none ∧
    parse_bounds "".data = none ∧
    parse_bounds "[1,2]".data = none ∧
    parse_bounds "[1,2][3,4]".data = some (1, 2, 3, 4) ∧
    parse_bounds "[ 1 , 2][3,4]".data = some (1, 2, 3, 4) ∧
    parse_bounds "(1,2][3,4)".data = some (1, 2, 3, 4) :=
  ⟨rfl, rfl, rfl, rfl, rfl, rfl⟩

/-- C6: the executors compute the center of a rectangle as
`(left + (right-left)/2, top + (bottom-top)/2)` with real
(non-truncating) division — equal to the exact midpoint — and the
web-click executor dispatches the click at exactly that point when the
locator is a bounds string; fractional half-pixel centers such as
`center(Rect{0,0,11,9}) = (5.5, 4.5)` are preserved. -/
theorem center_real_division (l t r b : Int) (hlr : l ≤ r) (htb : t ≤ b) :
    centerX l r = ((l : ℚ) + (r : ℚ)) / 2 ∧
    centerY t b = ((t : ℚ) + (b : ℚ)) / 2 ∧
    (centerX 0 10 = 5 ∧ centerY 0 10 = 5) ∧
    (centerX 0 11 = 11 / 2 ∧ centerY 0 9 = 9 / 2) ∧
    (∀ (d : JVal) (s : String),
      jhas d "xpath" = false → jhas d "css" = false →
      jhas d "bounds" = true → jfind d "bounds" = .jstr s →
      parse_bounds s.data = some (l, t, r, b) →
      process_web_click d = ([.webClickPoint (centerX l r) (centerY t b)],
        none)) := by
  refine ⟨by unfold centerX; ring, by unfold centerY; ring, ⟨?_, ?_⟩,
    ⟨?_, ?_⟩, ?_⟩
  · norm_num [centerX]
  · norm_num [centerY]
  · norm_num [centerX]
  · norm_num [centerY]
  · intro d s hx hc hb hfind hparse
    unfold process_web_click boundsOf
    rw [hx, hc, hb, hfind]
    simp [hparse]

/-- C6 witness: instantiated at `Rect{0,0,11,9}` located by the bounds
string `"[0,0][11,9]"`. -/
theorem center_real_division_witness :
    centerX 0 11 = ((0 : ℚ) + (11 : ℚ)) / 2 ∧
    process_web_click (.jobj [("bounds", .jstr "[0,0][11,9]")]) =
      ([.webClickPoint (centerX 0 11) (centerY 0 9)], none) := by
  have h := center_real_division 0 0 11 9 (by decide) (by decide)
  exact ⟨h.1, h.2.2.2.2 (.jobj [("bounds", .jstr "[0,0][11,9]")])
    "[0,0][11,9]" rfl rfl rfl rfl rfl⟩

/-- C7: `parse_bounds` is a left inverse of the canonical bounds
formatter: for every nonnegative integer quadruple with `right ≥ left`
and `bottom ≥ top`, formatting as `"[L,T][R,B]"` and parsing returns the
same quadruple. -/
theorem parse_bounds_left_inverse (l t r b : Int)
    (hl : 0 ≤ l) (ht : 0 ≤ t) (hr : 0 ≤ r) (hb : 0 ≤ b)
    (hlr : l ≤ r) (htb : t ≤ b) :
    parse_bounds (boundsFormat l t r b) = some (l, t, r, b) :=
  parse_bounds_boundsFormat l t r b hl ht hr hb

/-- C7 witness: the spec's own example `Rect{1,2,3,4}`. -/
theorem parse_bounds_left_inverse_witness :
    parse_bounds (boundsFormat 1 2 3 4) = some (1, 2, 3, 4) :=
  parse_bounds_left_inverse 1 2 3 4 (by decide) (by decide) (by decide)
    (by decide) (by decide) (by decide)

/-- C10: well-formed JSON of the wrong shape crashes the dispatcher:
a JSON array reaches `data["action"]` and raises an uncaught
`TypeError`, an object without an `"action"` key raises an uncaught
`KeyError`, and the step loop — which guards only against non-JSON text —
propagates the exception instead of recording an outcome. -/
theorem dispatch_uncaught_on_wrong_shape :
    process_next_action (some (.jarr [])) "web" (some 0) (some 0) =
      .error .typeError ∧
    process_next_action (some (.jobj [("foo", .jstr "bar")])) "web"
      (some 0) (some 0) = .error .keyError ∧
    runTask (fun _ _ _ _ => some (.jarr []))
      (fun _ => (some 0, some 0)) "web" (some 0) (some 0) =
      ([], some .typeError) :=
  ⟨rfl, rfl, rfl⟩

/-- C1 (counterexample): the fixed priority "XPath first" does not hold
on every platform.  On Android, a tap instruction carrying both an
`xpath` and a `bounds` locator is resolved through `bounds`
(a tap at the rectangle's center), not through `xpath`:
`process_mobile_tap` tests `"bounds" in data` first. -/
theorem mobile_tap_prefers_bounds_over_xpath :
    jhas (JVal.jobj [("action", .jstr "tap"), ("xpath", .jstr "//a"),
      ("bounds", .jstr "[0,0][10,10]")]) "xpath" = true ∧
    process_next_action (some (.jobj [("action", .jstr "tap"),
        ("xpath", .jstr "//a"), ("bounds", .jstr "[0,0][10,10]")]))
      "android" (some 0) (some 0) =
      .ok ((some 0, some 0),
        .jobj [("action", .jstr "tap"), ("xpath", .jstr "//a"),
          ("bounds", .jstr "[0,0][10,10]"), ("result", .jstr "success")],
        [.mobileTapPoint (centerX 0 10) (centerY 0 10),
         .capturePageSource, .captureScreenshot]) :=
  ⟨rfl, rfl⟩

/-- C1 (amended): locator priority is platform-dependent.  On Web,
Tap/Input follow XPath > CssSelector > Bounds.  On the mobile platforms
(Android/iOS), Tap/Input follow Bounds > XPath: whenever a `bounds`
field is present it is used and the xpath lookup never runs; `xpath` is
consulted only when `bounds` is absent. -/
theorem locator_priority_by_platform (d : JVal) :
    (jhas d "xpath" = true →
      process_web_click d = ([.webClickElemXPath (jfind d "xpath")], none)) ∧
    (jhas d "xpath" = false → jhas d "css" = true →
      process_web_click d = ([.webClickElemCss (jfind d "css")], none)) ∧
    (jhas d "bounds" = true →
      ∀ x, Effect.mobileFindXPath x ∉ (process_mobile_tap d).1) ∧
    (jhas d "bounds" = false → jhas d "xpath" = true →
      process_mobile_tap d =
        ([.mobileFindXPath (jfind d "xpath"), .elemClick], none)) ∧
    (jhas d "xpath" = true → ∃ rest err,
      process_web_input d =
        (.webLocateXPath (jfind d "xpath") :: rest, err)) ∧
    (jhas d "bounds" = true →
      ∀ x, Effect.mobileFindXPath x ∉ (process_mobile_input d).1) ∧
    (jhas d "bounds" = false → jhas d "xpath" = true → ∃ rest err,
      process_mobile_input d =
        (.mobileFindXPath (jfind d "xpath") :: rest, err)) := by
  refine ⟨?_, ?_, ?_, ?_, ?_, ?_, ?_⟩
  · intro hx
    unfold process_web_click
    rw [hx]
    simp
  · intro hx hc
    unfold process_web_click
    rw [hx, hc]
    simp
  · intro hb x
    unfold process_mobile_tap
    rw [hb]
    simp only [if_pos]
    cases hE : boundsOf d with
    | ok q => obtain ⟨l, t, r, b⟩ := q; simp
    | error e => simp
  · intro hb hx
    unfold process_mobile_tap
    rw [hb, hx]
    simp
  · intro hx
    unfold process_web_input
    rw [hx]
    cases hv : pyGet d "value" with
    | ok v => exact ⟨[.elemClear, .elemSendKeys v], none, by simp⟩
    | error e => exact ⟨[.elemClear], some e, by simp⟩
  · intro hb x
    unfold process_mobile_input
    rw [hb]
    simp only [if_pos]
    cases hE : boundsOf d with
    | ok q =>
        obtain ⟨l, t, r, b⟩ := q
        cases hv : pyGet d "value" with
        | ok v => simp
        | error e => simp
    | error e => simp
  · intro hb hx
    unfold process_mobile_input
    rw [hb, hx]
    cases hv : pyGet d "value" with
    | ok v =>
        exact ⟨[.elemClick, .mobileFindFocused, .elemSendKeys v,
          .hideKeyboard], none, by simp⟩
    | error e => exact ⟨[.elemClick, .mobileFindFocused], some e, by simp⟩

/-- C1 witness: the amended priority applied to concrete payloads — a
web click with all three locators uses xpath, a mobile tap with both
bounds and xpath never runs the xpath lookup, and a mobile tap with
only xpath uses it. -/
theorem locator_priority_by_platform_witness :
    process_web_click (.jobj [("xpath", .jstr "//a"), ("css", .jstr "c"),
        ("bounds", .jstr "[0,0][2,2]")]) =
      ([.webClickElemXPath (.jstr "//a")], none) ∧
    (∀ x, Effect.mobileFindXPath x ∉
      (process_mobile_tap (.jobj [("xpath", .jstr "//a"),
        ("bounds", .jstr "[0,0][2,2]")])).1) ∧
    process_mobile_tap (.jobj [("xpath", .jstr "//a")]) =
      ([.mobileFindXPath (.jstr "//a"), .elemClick], none) := by
  refine ⟨?_, ?_, ?_⟩
  · exact (locator_priority_by_platform _).1 rfl
  · exact (locator_priority_by_platform _).2.2.1 rfl
  · exact (locator_priority_by_platform _).2.2.2.1 rfl rfl

/-- C2 (counterexample): a tap instruction with no locator field at all
is not rejected: the web click executor falls through every branch
without touching the backend, and the dispatcher still records
`result: "success"` — a silent no-op reported as success, with no
`MissingLocatorError` anywhere. -/
theorem missing_locator_reports_success :
    process_next_action (some (.jobj [("action", .jstr "tap")])) "web"
      (some 0) (some 0) =
      .ok ((some 0, some 0),
        .jobj [("action", .jstr "tap"), ("result", .jstr "success")],
        [.capturePageSource, .captureScreenshot]) ∧
    ∀ e ∈ ([Effect.capturePageSource, Effect.captureScreenshot] :
        List Effect), e.isBackendOp = false :=
  ⟨rfl, by decide⟩

/-- C2 (amended): for a Tap or Input instruction in which none of the
locator fields `xpath`/`css`/`bounds` is present, the dispatcher
performs no backend operation and returns the outcome with
`result: "success"` — a silent no-op, on every platform, rather than
any `MissingLocatorError`-derived failure. -/
theorem missing_locator_silent_noop (d : JVal) (p : String)
    (c1 c2 : Option Artifact) (a : String)
    (ha : pyGet d "action" = .ok (.jstr a))
    (hk : a = "tap" ∨ a = "input")
    (hx : jhas d "xpath" = false) (hc : jhas d "css" = false)
    (hb : jhas d "bounds" = false) :
    process_next_action (some d) p c1 c2 =
      .ok ((c1, c2), jset d "result" (.jstr "success"),
        [.capturePageSource, .captureScreenshot]) := by
  simp only [process_next_action, ha]
  rcases hk with rfl | rfl
  · by_cases hp : p = "web"
    · simp [runAction, execResult, hp, process_web_click, hx, hc, hb, jeqStr]
    · simp [runAction, execResult, hp, process_mobile_tap, hx, hb, jeqStr]
  · by_cases hp : p = "web"
    · simp [runAction, execResult, hp, process_web_input, hx, hc, jeqStr]
    · simp [runAction, execResult, hp, process_mobile_input, hx, hb, jeqStr]

/-- C2 witness: the amended statement at the concrete instruction
`{"action": "tap"}` on web. -/
theorem missing_locator_silent_noop_witness :
    process_next_action (some (.jobj [("action", .jstr "tap")])) "web"
      (some 5) (some 6) =
      .ok ((some 5, some 6),
        jset (.jobj [("action", .jstr "tap")]) "result" (.jstr "success"),
        [.capturePageSource, .captureScreenshot]) :=
  missing_locator_silent_noop (.jobj [("action", .jstr "tap")]) "web"
    (some 5) (some 6) "tap" rfl (Or.inl rfl) rfl rfl rfl

/-- C3: for every oracle, capture behavior, platform and initial
artifacts, one task's loop produces at most 50 step records — even when
every oracle response is non-terminal — and any record whose source
artifact is absent is the last one: the loop guard stops as soon as a
capture yields no source artifact. -/
theorem step_loop_bounded
    (oracle : Nat → List JVal → Option Artifact → Option Artifact →
      Option JVal)
    (caps : Nat → Option Artifact × Option Artifact) (p : String)
    (initSrc initShot : Option Artifact) :
    (runTask oracle caps p initSrc initShot).1.length ≤ 50 ∧
    ∀ i r, (runTask oracle caps p initSrc initShot).1.get? i = some r →
      r.src = none →
      i + 1 = (runTask oracle caps p initSrc initShot).1.length :=
  ⟨loopAux_length_le oracle caps p 50 0 initSrc initShot [],
   fun i r hget hsrc =>
     loopAux_none_is_last oracle caps p 50 0 initSrc initShot [] i r hget hsrc⟩

/-- C3 witness: an oracle whose first response is unparseable JSON
produces a single record carrying no source artifact, which is indeed
the final one, and the cap holds. -/
theorem step_loop_bounded_witness :
    (runTask (fun _ _ _ _ => none) (fun _ => (some 0, some 0)) "web"
      (some 0) (some 0)).1.length ≤ 50 ∧
    0 + 1 = (runTask (fun _ _ _ _ => none) (fun _ => (some 0, some 0)) "web"
      (some 0) (some 0)).1.length :=
  ⟨(step_loop_bounded (fun _ _ _ _ => none) (fun _ => (some 0, some 0))
      "web" (some 0) (some 0)).1,
   (step_loop_bounded (fun _ _ _ _ => none) (fun _ => (some 0, some 0))
      "web" (some 0) (some 0)).2 0 ⟨1, none, none, invalidJsonOutcome⟩
      rfl rfl⟩

/-- C4: when the parsed action kind is `finish` or `error`, the
dispatcher performs no backend operation (only the two state captures),
the outcome is the received action with `result: "success"`, and the
loop terminates at that very step with exactly one record for it — no
further instruction requests happen. -/
theorem terminal_action_dispatch_and_loop
    (oracle : Nat → List JVal → Option Artifact → Option Artifact →
      Option JVal)
    (caps : Nat → Option Artifact × Option Artifact) (p : String)
    (a0 s0 : Artifact) (d : JVal)
    (h1 : oracle 1 [] (some a0) (some s0) = some d)
    (ha : pyGet d "action" = .ok (.jstr "finish") ∨
          pyGet d "action" = .ok (.jstr "error")) :
    (∀ c1 c2, process_next_action (some d) p c1 c2 =
      .ok ((c1, c2), jset d "result" (.jstr "success"),
        [.capturePageSource, .captureScreenshot])) ∧
    runTask oracle caps p (some a0) (some s0) =
      ([⟨1, (caps 1).1, (caps 1).2, jset d "result" (.jstr "success")⟩],
       none) := by
  have hdisp : ∀ c1 c2, process_next_action (some d) p c1 c2 =
      .ok ((c1, c2), jset d "result" (.jstr "success"),
        [.capturePageSource, .captureScreenshot]) := by
    intro c1 c2
    rcases ha with ha | ha <;> simp [process_next_action, ha, jeqStr]
  refine ⟨hdisp, ?_⟩
  show loopAux oracle caps p (49 + 1) 0 (some a0) (some s0) [] = _
  rw [loopAux_succ]
  simp only [Nat.zero_add]
  rw [h1, hdisp]
  simp only []
  rcases ha with ha | ha
  · rw [@pyGet_jset_ne d "action" "result" (.jstr "finish")
      (.jstr "success") ha (by decide)]
    simp [jeqStr]
  · rw [@pyGet_jset_ne d "action" "result" (.jstr "error")
      (.jstr "success") ha (by decide)]
    simp [jeqStr]

/-- C4 witness: the oracle answers `{"action": "finish"}` at step 1. -/
theorem terminal_action_dispatch_and_loop_witness :
    (∀ c1 c2, process_next_action (some (.jobj [("action", .jstr "finish")]))
      "web" c1 c2 =
      .ok ((c1, c2),
        jset (.jobj [("action", .jstr "finish")]) "result" (.jstr "success"),
        [.capturePageSource, .captureScreenshot])) ∧
    runTask (fun _ _ _ _ => some (.jobj [("action", .jstr "finish")]))
      (fun _ => (some 1, some 2)) "web" (some 0) (some 0) =
      ([⟨1, some 1, some 2,
         jset (.jobj [("action", .jstr "finish")]) "result"
           (.jstr "success")⟩], none) :=
  terminal_action_dispatch_and_loop
    (fun _ _ _ _ => some (.jobj [("action", .jstr "finish")]))
    (fun _ => (some 1, some 2)) "web" 0 0
    (.jobj [("action", .jstr "finish")]) rfl (Or.inl rfl)

/-- C8: an instruction string that fails to parse as JSON makes the
dispatcher return the degenerate outcome
`{"action": "error", "result": "Invalid JSON"}` immediately, with no
backend operation and no state capture in that branch; the loop records
it and terminates normally instead of crashing. -/
theorem invalid_json_degenerate_outcome (p : String)
    (c1 c2 : Option Artifact)
    (oracle : Nat → List JVal → Option Artifact → Option Artifact →
      Option JVal)
    (caps : Nat → Option Artifact × Option Artifact) (a0 s0 : Artifact)
    (h : oracle 1 [] (some a0) (some s0) = none) :
    process_next_action none p c1 c2 =
      .ok ((none, none), invalidJsonOutcome, []) ∧
    runTask oracle caps p (some a0) (some s0) =
      ([⟨1, none, none, invalidJsonOutcome⟩], none) := by
  refine ⟨rfl, ?_⟩
  show loopAux oracle caps p (49 + 1) 0 (some a0) (some s0) [] = _
  rw [loopAux_succ]
  simp only [Nat.zero_add]
  rw [h]
  rfl

/-- C8 witness: concrete oracle returning unparseable text at step 1. -/
theorem invalid_json_degenerate_outcome_witness :
    process_next_action none "android" (some 7) (some 8) =
      .ok ((none, none), invalidJsonOutcome, []) ∧
    runTask (fun _ _ _ _ => none) (fun _ => (some 1, some 2)) "android"
      (some 0) (some 0) =
      ([⟨1, none, none, invalidJsonOutcome⟩], none) :=
  invalid_json_degenerate_outcome "android" (some 7) (some 8)
    (fun _ _ _ _ => none) (fun _ => (some 1, some 2)) 0 0 rfl

/-- C9 (counterexample): a source with none of the markers is detected
as `"unknown"`, yet the run does not halt: with an oracle that answers a
tap and then finish, the loop executes two steps, and the tap is
dispatched through the mobile executors (backend tap at the bounds
center) under the `"unknown"` platform. -/
theorem unknown_platform_run_proceeds :
    detect_platform "plain text 123".data = "unknown" ∧
    (runTask
      (fun n _ _ _ => if n = 1
        then some (.jobj [("action", .jstr "tap"),
          ("bounds", .jstr "[0,0][2,2]")])
        else some (.jobj [("action", .jstr "finish")]))
      (fun _ => (some 0, some 0)) "unknown" (some 0) (some 0)).1.length =
      2 ∧
    process_next_action (some (.jobj [("action", .jstr "tap"),
        ("bounds", .jstr "[0,0][2,2]")])) "unknown" (some 0) (some 0) =
      .ok ((some 0, some 0),
        .jobj [("action", .jstr "tap"), ("bounds", .jstr "[0,0][2,2]"),
          ("result", .jstr "success")],
        [.mobileTapPoint (centerX 0 2) (centerY 0 2),
         .capturePageSource, .captureScreenshot]) :=
  ⟨rfl, rfl, rfl⟩

/-- C9 (amended): platform detection maps HTML markers to web, else the
iOS element-type marker to ios, else android/hierarchy markers to
android, else to unknown; however a run whose detection yields unknown
does not halt — the loop proceeds and treats the unknown platform like
a mobile (non-web) backend. -/
theorem detect_platform_mapping_and_no_halt (s : List Char)
    (oracle : Nat → List JVal → Option Artifact → Option Artifact →
      Option JVal)
    (caps : Nat → Option Artifact × Option Artifact) (a0 s0 : Artifact)
    (d : JVal)
    (h1 : hasHtmlMarker s = false) (h2 : hasIosMarker s = false)
    (h3 : hasAndroidMarker s = false)
    (ho : oracle 1 [] (some a0) (some s0) = some d)
    (hd : pyGet d "action" = .ok (.jstr "tap")) :
    (∀ u, hasHtmlMarker u = true → detect_platform u = "web") ∧
    (∀ u, hasHtmlMarker u = false → hasIosMarker u = true →
      detect_platform u = "ios") ∧
    (∀ u, hasHtmlMarker u = false → hasIosMarker u = false →
      hasAndroidMarker u = true → detect_platform u = "android") ∧
    detect_platform s = "unknown" ∧
    (runTask oracle caps (detect_platform s) (some a0) (some s0)).1 ≠
      [] := by
  refine ⟨?_, ?_, ?_, ?_, ?_⟩
  · intro u hu; simp [detect_platform, hu]
  · intro u hu1 hu2; simp [detect_platform, hu1, hu2]
  · intro u hu1 hu2 hu3; simp [detect_platform, hu1, hu2, hu3]
  · simp [detect_platform, h1, h2, h3]
  · show (loopAux oracle caps (detect_platform s) (49 + 1) 0 (some a0)
      (some s0) []).1 ≠ []
    rw [loopAux_succ]
    simp only [Nat.zero_add]
    rw [ho]
    simp only [process_next_action, hd]
    rcases hR : runAction d (.jstr "tap") (detect_platform s) with ⟨effs, res⟩
    simp only [jeqStr, hR]
    simp only [show (decide ("tap" = "error") || decide ("tap" = "finish")) =
      false from rfl, Bool.false_eq_true, if_false]
    rw [@pyGet_jset_ne d "action" "result" (.jstr "tap") res hd (by decide)]
    simp [jeqStr]

/-- C9 witness: the amended statement at a markerless source string with
a tap-answering oracle. -/
theorem detect_platform_mapping_and_no_halt_witness :
    detect_platform "plain text 123".data = "unknown" ∧
    (runTask
      (fun _ _ _ _ => some (.jobj [("action", .jstr "tap")]))
      (fun _ => (some 0, some 0))
      (detect_platform "plain text 123".data) (some 0) (some 0)).1 ≠ [] :=
  ⟨(detect_platform_mapping_and_no_halt "plain text 123".data
      (fun _ _ _ _ => some (.jobj [("action", .jstr "tap")]))
      (fun _ => (some 0, some 0)) 0 0 (.jobj [("action", .jstr "tap")])
      rfl rfl rfl rfl rfl).2.2.2.1,
   (detect_platform_mapping_and_no_halt "plain text 123".data
      (fun _ _ _ _ => some (.jobj [("action", .jstr "tap")]))
      (fun _ => (some 0, some 0)) 0 0 (.jobj [("action", .jstr "tap")])
      rfl rfl rfl rfl rfl).2.2.2.2⟩

end FtntQa
